import Mathlib

/-
Verification of the OPA data-filter compile pipeline
(`data_filter_example/opa.py`): the query preprocessor, the two SQL
translators (the portable `queryTranslator` and the schema-bound
`SqlAlchemyQueryTranslator`) and the `compile` orchestrator.

The intermediate policy model (package `rego`, module `ast`) and the SQL
clause model (module `data_filter_example/sql.py`) are dependencies of
`opa.py` whose sources are not part of this tree; their data types are
modelled from the specification's data-model section.  All pipeline logic
is embedded directly from `opa.py`.  Python exceptions are modelled with
`Except`: `TranslationError` carries its message string, and unhandled
Python errors (`KeyError` from `set.remove`, `IndexError` from list
indexing, `TypeError` from unhashable dictionary keys, `AssertionError`
from a failed `assert`) are separate error constructors.
-/

deriving instance DecidableEq for Except

namespace DFE

/-- Modelled from the spec: scalar literal values carried by the policy
result (string/number/boolean); numbers are modelled as integers. -/
inductive Value where
  | str (s : String)
  | int (n : Int)
  | bool (b : Bool)
deriving DecidableEq

/-- Modelled from the spec: a `Term` of the intermediate model (module
`rego.ast`, not in this tree) is a tagged value: *Scalar*, *Ref* (ordered
segment terms), *Var* (identifier), or *NestedCall* (operator and ordered
operands). -/
inductive Term where
  | scalar (v : Value)
  | ref (segments : List Term)
  | var (name : String)
  | call (op : String) (operands : List Term)

mutual

/-- Decidable equality of terms (written by hand: automatic deriving does
not support the nested `List Term` occurrences). -/
def Term.decEq : (a b : Term) → Decidable (a = b)
  | .scalar v, .scalar w =>
    if h : v = w then .isTrue (h ▸ rfl)
    else .isFalse (fun hh => h (Term.scalar.inj hh))
  | .ref xs, .ref ys =>
    match Term.decEqList xs ys with
    | .isTrue h => .isTrue (h ▸ rfl)
    | .isFalse h => .isFalse (fun hh => h (Term.ref.inj hh))
  | .var n, .var m =>
    if h : n = m then .isTrue (h ▸ rfl)
    else .isFalse (fun hh => h (Term.var.inj hh))
  | .call o xs, .call p ys =>
    if h : o = p then
      match Term.decEqList xs ys with
      | .isTrue h2 => .isTrue (h ▸ h2 ▸ rfl)
      | .isFalse h2 => .isFalse (fun hh => h2 (Term.call.inj hh).2)
    else .isFalse (fun hh => h (Term.call.inj hh).1)
  | .scalar _, .ref _ => .isFalse (fun h => Term.noConfusion h)
  | .scalar _, .var _ => .isFalse (fun h => Term.noConfusion h)
  | .scalar _, .call _ _ => .isFalse (fun h => Term.noConfusion h)
  | .ref _, .scalar _ => .isFalse (fun h => Term.noConfusion h)
  | .ref _, .var _ => .isFalse (fun h => Term.noConfusion h)
  | .ref _, .call _ _ => .isFalse (fun h => Term.noConfusion h)
  | .var _, .scalar _ => .isFalse (fun h => Term.noConfusion h)
  | .var _, .ref _ => .isFalse (fun h => Term.noConfusion h)
  | .var _, .call _ _ => .isFalse (fun h => Term.noConfusion h)
  | .call _ _, .scalar _ => .isFalse (fun h => Term.noConfusion h)
  | .call _ _, .ref _ => .isFalse (fun h => Term.noConfusion h)
  | .call _ _, .var _ => .isFalse (fun h => Term.noConfusion h)

/-- Decidable equality of term lists, mutually with `Term.decEq`. -/
def Term.decEqList : (a b : List Term) → Decidable (a = b)
  | [], [] => .isTrue rfl
  | [], _ :: _ => .isFalse (fun h => List.noConfusion h)
  | _ :: _, [] => .isFalse (fun h => List.noConfusion h)
  | x :: xs, y :: ys =>
    match Term.decEq x y with
    | .isTrue h1 =>
      match Term.decEqList xs ys with
      | .isTrue h2 => .isTrue (h1 ▸ h2 ▸ rfl)
      | .isFalse h2 => .isFalse (fun h => h2 (List.cons.inj h).2)
    | .isFalse h1 => .isFalse (fun h => h1 (List.cons.inj h).1)

end

instance : DecidableEq Term := Term.decEq

/-- Modelled from the spec: an `Expr` is either a *Call* (operator plus
ordered operand terms; the operator position is not an operand) or a
*Bare* lone term. -/
inductive Expr where
  | callE (op : String) (operands : List Term)
  | bare (t : Term)
deriving DecidableEq

/-- Modelled from the spec: a Query is an ordered sequence of Exprs
(logical AND). -/
abbrev Query := List Expr

/-- Modelled from the spec: a QuerySet is an ordered sequence of Queries
(logical OR). -/
abbrev QuerySet := List Query

/-- Failure modes of the pipeline.  `translation` is a raised
`TranslationError` with its message; the others model unhandled Python
exceptions escaping the pipeline. -/
inductive Err where
  | translation (msg : String)
  | keyError
  | indexError
  | typeError
  | assertionError
  | noSuchTable (t : String)
deriving DecidableEq

/-- Python class name of a term's value object (`v.__class__.__name__`),
as interpolated into `TranslationError` messages by `opa.py`. -/
def className : Term → String
  | .scalar _ => "Scalar"
  | .ref _ => "Ref"
  | .var _ => "Var"
  | .call _ _ => "Call"

/-- The Python expression `term.value.value`, used by `opa.py` as a
dictionary/set key: a `Var`'s value is its name, a `Scalar`'s value is the
literal.  A `Ref`/`Call` value is a list, which is unhashable in Python,
so using it as a key is modelled as a `TypeError`. -/
def termKey : Term → Except Err Value
  | .var n => .ok (.str n)
  | .scalar v => .ok v
  | _ => .error .typeError

/-- `term.value.value` where a string is required (sqlalchemy table and
column names).  Non-string scalars are modelled as a `TypeError`. -/
def termKeyStr : Term → Except Err String
  | .var n => .ok n
  | .scalar (.str s) => .ok s
  | _ => .error .typeError

/-- Association-list lookup, modelling a Python dictionary read. -/
def lookupA {α β : Type} [DecidableEq α] : List (α × β) → α → Option β
  | [], _ => none
  | (k', v) :: rest, k => if k' = k then some v else lookupA rest k

/-- Association-list update, modelling Python dictionary assignment
(overwrite in place, else append; insertion order preserved). -/
def updateA {α β : Type} [DecidableEq α] : List (α × β) → α → β → List (α × β)
  | [], k, v => [(k, v)]
  | (k', v') :: rest, k, v =>
      if k' = k then (k, v) :: rest else (k', v') :: updateA rest k v

/-- State of `queryPreprocessor`: `tableNames` is the stack of per-Query
table-name → iterator-variable bindings (`self._table_names`; Python
appends and reads `[-1]`, modelled here with the current scope at the
head), `tableVars` is the variable-name → 2-segment-prefix map
(`self._table_vars`), reset at each Query. -/
structure PState where
  tableNames : List (List (Value × String))
  tableVars : List (String × List Term)
deriving DecidableEq

/-- Lookup of `head in self._table_vars`: the dictionary is keyed by
iterator-variable names (strings), so non-string keys never match. -/
def lookupVar (tv : List (String × List Term)) : Value → Option (List Term)
  | .str s => lookupA tv s
  | _ => none

/-- The `ast.Ref` branch of `queryPreprocessor.__call__`: splice a bound
variable's table prefix, or validate the row identifier, record the
variable→prefix and table→iterator bindings (failing on a self-join), and
drop the iterator segment. -/
def preprocessRef (st : PState) (segs : List Term) : Except Err (PState × List Term) :=
  match segs with
  | [] => .error .indexError
  | s0 :: _ =>
    match termKey s0 with
    | .error e => .error e
    | .ok hk =>
      match lookupVar st.tableVars hk with
      | some prefx =>
          -- Expand ref in case head was an intermediate var.
          .ok (st, prefx ++ segs.tail)
      | none =>
        match segs with
        | s0 :: s1 :: s2 :: rest =>
          match s2 with
          | .var x =>
            let prefx := [s0, s1]
            -- Add mapping so that refs headed by `x` can be expanded.
            let tv' := updateA st.tableVars x prefx
            match termKey s1 with
            | .error e => .error e
            | .ok tn =>
              match st.tableNames with
              | [] => .error .indexError
              | scope :: outer =>
                let exist := (lookupA scope tn).getD x
                if exist ≠ x then
                  .error (.translation "invalid reference: self-joins not supported")
                else
                  .ok (⟨updateA scope tn x :: outer, tv'⟩, prefx ++ rest)
          | other =>
              .error (.translation
                ("invalid reference: row identifier type not supported: " ++ className other))
        | _ => .error .indexError

mutual

/-- Depth-first preprocessing of one term (the walk over `ast.Term`
values): refs are rewritten by `preprocessRef` and not descended into,
nested calls are descended into operand-wise (operator skipped), scalars
and vars are left unchanged. -/
def preprocessTerm (st : PState) : Term → Except Err (PState × Term)
  | .scalar v => .ok (st, .scalar v)
  | .var n => .ok (st, .var n)
  | .ref segs =>
    match preprocessRef st segs with
    | .error e => .error e
    | .ok (st', segs') => .ok (st', .ref segs')
  | .call op args =>
    match preprocessTerms st args with
    | .error e => .error e
    | .ok (st', args') => .ok (st', .call op args')

/-- Preprocess a list of terms in order, threading the state. -/
def preprocessTerms (st : PState) : List Term → Except Err (PState × List Term)
  | [] => .ok (st, [])
  | t :: ts =>
    match preprocessTerm st t with
    | .error e => .error e
    | .ok (st', t') =>
      match preprocessTerms st' ts with
      | .error e => .error e
      | .ok (st'', ts') => .ok (st'', t' :: ts')

end

/-- The `ast.Expr` branch of the preprocessor walk: for a call, walk the
operands (skipping the operator position); for a bare expr, walk its
term. -/
def preprocessExpr (st : PState) : Expr → Except Err (PState × Expr)
  | .callE op args =>
    match preprocessTerms st args with
    | .error e => .error e
    | .ok (st', args') => .ok (st', .callE op args')
  | .bare t =>
    match preprocessTerm st t with
    | .error e => .error e
    | .ok (st', t') => .ok (st', .bare t')

/-- Preprocess a query's exprs in order, threading the state. -/
def preprocessExprs (st : PState) : List Expr → Except Err (PState × List Expr)
  | [] => .ok (st, [])
  | e :: es =>
    match preprocessExpr st e with
    | .error e' => .error e'
    | .ok (st', e'') =>
      match preprocessExprs st' es with
      | .error e' => .error e'
      | .ok (st'', es') => .ok (st'', e'' :: es')

/-- The `ast.Query` branch of the preprocessor walk: push a fresh
table-name scope and reset the variable map, then walk the exprs. -/
def preprocessQuery (st : PState) (q : Query) : Except Err (PState × Query) :=
  preprocessExprs ⟨[] :: st.tableNames, []⟩ q

/-- Preprocess the queries of a query set in order, threading the
state. -/
def preprocessQueries (st : PState) : QuerySet → Except Err (PState × QuerySet)
  | [] => .ok (st, [])
  | q :: qs =>
    match preprocessQuery st q with
    | .error e => .error e
    | .ok (st', q') =>
      match preprocessQueries st' qs with
      | .error e => .error e
      | .ok (st'', qs') => .ok (st'', q' :: qs')

/-- `queryPreprocessor().process(query_set)`: rewrite every ref of the
query set in place (here: returning the rewritten query set). -/
def preprocessQuerySet (qs : QuerySet) : Except Err QuerySet :=
  match preprocessQueries ⟨[], []⟩ qs with
  | .error e => .error e
  | .ok (_, qs') => .ok qs'

/-- Modelled from the spec: an output Operand of the SQL clause model
(module `data_filter_example/sql.py`, not in this tree) is a
*Column*(table, name), a *Constant*(value), or a *Call*(function,
operands). -/
inductive Operand where
  | column (table name : Value)
  | constant (v : Value)
  | callO (func : String) (operands : List Operand)

mutual

/-- Decidable equality of operands (hand-written for the nested list). -/
def Operand.decEq : (a b : Operand) → Decidable (a = b)
  | .column t n, .column t' n' =>
    if h : t = t' then
      if h2 : n = n' then .isTrue (h ▸ h2 ▸ rfl)
      else .isFalse (fun hh => h2 (Operand.column.inj hh).2)
    else .isFalse (fun hh => h (Operand.column.inj hh).1)
  | .constant v, .constant w =>
    if h : v = w then .isTrue (h ▸ rfl)
    else .isFalse (fun hh => h (Operand.constant.inj hh))
  | .callO f xs, .callO g ys =>
    if h : f = g then
      match Operand.decEqList xs ys with
      | .isTrue h2 => .isTrue (h ▸ h2 ▸ rfl)
      | .isFalse h2 => .isFalse (fun hh => h2 (Operand.callO.inj hh).2)
    else .isFalse (fun hh => h (Operand.callO.inj hh).1)
  | .column _ _, .constant _ => .isFalse (fun h => Operand.noConfusion h)
  | .column _ _, .callO _ _ => .isFalse (fun h => Operand.noConfusion h)
  | .constant _, .column _ _ => .isFalse (fun h => Operand.noConfusion h)
  | .constant _, .callO _ _ => .isFalse (fun h => Operand.noConfusion h)
  | .callO _ _, .column _ _ => .isFalse (fun h => Operand.noConfusion h)
  | .callO _ _, .constant _ => .isFalse (fun h => Operand.noConfusion h)

/-- Decidable equality of operand lists, mutually with `Operand.decEq`. -/
def Operand.decEqList : (a b : List Operand) → Decidable (a = b)
  | [], [] => .isTrue rfl
  | [], _ :: _ => .isFalse (fun h => List.noConfusion h)
  | _ :: _, [] => .isFalse (fun h => List.noConfusion h)
  | x :: xs, y :: ys =>
    match Operand.decEq x y with
    | .isTrue h1 =>
      match Operand.decEqList xs ys with
      | .isTrue h2 => .isTrue (h1 ▸ h2 ▸ rfl)
      | .isFalse h2 => .isFalse (fun h => h2 (List.cons.inj h).2)
    | .isFalse h1 => .isFalse (fun h => h1 (List.cons.inj h).1)

end

instance : DecidableEq Operand := Operand.decEq

/-- Modelled from the spec: a Condition of the SQL clause model is a
*Disjunction* or *Conjunction* of conditions, a *Relation*(operator,
left, right), or a *Call*(function, operands). -/
inductive Condition where
  | disjunction (cs : List Condition)
  | conjunction (cs : List Condition)
  | relation (op : String) (l r : Operand)
  | callC (func : String) (operands : List Operand)

mutual

/-- Decidable equality of conditions (hand-written for the nested
lists). -/
def Condition.decEq : (a b : Condition) → Decidable (a = b)
  | .disjunction xs, .disjunction ys =>
    match Condition.decEqList xs ys with
    | .isTrue h => .isTrue (h ▸ rfl)
    | .isFalse h => .isFalse (fun hh => h (Condition.disjunction.inj hh))
  | .conjunction xs, .conjunction ys =>
    match Condition.decEqList xs ys with
    | .isTrue h => .isTrue (h ▸ rfl)
    | .isFalse h => .isFalse (fun hh => h (Condition.conjunction.inj hh))
  | .relation o l r, .relation o' l' r' =>
    if h : o = o' then
      if h2 : l = l' then
        if h3 : r = r' then .isTrue (h ▸ h2 ▸ h3 ▸ rfl)
        else .isFalse (fun hh => h3 (Condition.relation.inj hh).2.2)
      else .isFalse (fun hh => h2 (Condition.relation.inj hh).2.1)
    else .isFalse (fun hh => h (Condition.relation.inj hh).1)
  | .callC f xs, .callC g ys =>
    if h : f = g then
      if h2 : xs = ys then .isTrue (h ▸ h2 ▸ rfl)
      else .isFalse (fun hh => h2 (Condition.callC.inj hh).2)
    else .isFalse (fun hh => h (Condition.callC.inj hh).1)
  | .disjunction _, .conjunction _ => .isFalse (fun h => Condition.noConfusion h)
  | .disjunction _, .relation _ _ _ => .isFalse (fun h => Condition.noConfusion h)
  | .disjunction _, .callC _ _ => .isFalse (fun h => Condition.noConfusion h)
  | .conjunction _, .disjunction _ => .isFalse (fun h => Condition.noConfusion h)
  | .conjunction _, .relation _ _ _ => .isFalse (fun h => Condition.noConfusion h)
  | .conjunction _, .callC _ _ => .isFalse (fun h => Condition.noConfusion h)
  | .relation _ _ _, .disjunction _ => .isFalse (fun h => Condition.noConfusion h)
  | .relation _ _ _, .conjunction _ => .isFalse (fun h => Condition.noConfusion h)
  | .relation _ _ _, .callC _ _ => .isFalse (fun h => Condition.noConfusion h)
  | .callC _ _, .disjunction _ => .isFalse (fun h => Condition.noConfusion h)
  | .callC _ _, .conjunction _ => .isFalse (fun h => Condition.noConfusion h)
  | .callC _ _, .relation _ _ _ => .isFalse (fun h => Condition.noConfusion h)

/-- Decidable equality of condition lists, mutually with
`Condition.decEq`. -/
def Condition.decEqList : (a b : List Condition) → Decidable (a = b)
  | [], [] => .isTrue rfl
  | [], _ :: _ => .isFalse (fun h => List.noConfusion h)
  | _ :: _, [] => .isFalse (fun h => List.noConfusion h)
  | x :: xs, y :: ys =>
    match Condition.decEq x y with
    | .isTrue h1 =>
      match Condition.decEqList xs ys with
      | .isTrue h2 => .isTrue (h1 ▸ h2 ▸ rfl)
      | .isFalse h2 => .isFalse (fun h => h2 (List.cons.inj h).2)
    | .isFalse h1 => .isFalse (fun h => h1 (List.cons.inj h).1)

end

instance : DecidableEq Condition := Condition.decEq

/-- Modelled from the spec: a Clause is a *Where*(Condition) or an
*InnerJoin*(table-name set, Condition).  The joined tables form a set
(the translator passes its Python `set` of touched tables minus the
from-table), modelled as a `Finset`. -/
inductive Clause where
  | whereC (cond : Condition)
  | innerJoin (tables : Finset Value) (cond : Condition)
deriving DecidableEq

/-- Modelled from the spec: a Union is an ordered sequence of Clauses. -/
abbrev Union := List Clause

/-- `opa.Result`: `defined` is False only when the query is never
defined; `sql` is the optional Union of clauses. -/
structure Result where
  defined : Bool
  sql : Option Union
deriving DecidableEq

/-- `queryTranslator._sql_relation_operators`: the supported Rego
relational operators and their SQL counterparts. -/
def sqlRelationOperators (op : String) : Option String :=
  if op = "eq" then some "="
  else if op = "equal" then some "="
  else if op = "neq" then some "!="
  else if op = "lt" then some "<"
  else if op = "gt" then some ">"
  else if op = "lte" then some "<="
  else if op = "gte" then some ">="
  else none

/-- `queryTranslator._sql_call_operators`: the supported Rego call
operators and their SQL counterparts. -/
def sqlCallOperators (op : String) : Option String :=
  if op = "abs" then some "abs" else none

/-- Per-Query state of `queryTranslator`: the set of touched tables
(`self._tables`, a Python set) and the relation stack
(`self._relations`). -/
structure TQState where
  tables : Finset Value
  relations : List Condition
deriving DecidableEq

/-- Cross-Query state of `queryTranslator`: the single-table conjunction
stack (`self._conjunctions`) and the join stack (`self._joins`). -/
structure GState where
  conjunctions : List Condition
  joins : List (Finset Value × Condition)
deriving DecidableEq

mutual

/-- `queryTranslator._translate_term`: resolve one term to an operand,
recording touched tables.  A scalar becomes a Constant; a 3-segment ref
becomes a Column (adding its table to the touched set); a nested call
with a supported operator becomes a Call over all recursively resolved
operands (no arity check in this backend); anything else raises
`TranslationError` naming the value's kind. -/
def translateTerm : Term → Finset Value → Except Err (Finset Value × Operand)
  | .scalar v, tbls => .ok (tbls, .constant v)
  | .ref [_, s1, s2], tbls =>
    match termKey s1 with
    | .error e => .error e
    | .ok table =>
      match termKey s2 with
      | .error e => .error e
      | .ok col => .ok (insert table tbls, .column table col)
  | .call op args, tbls =>
    match sqlCallOperators op with
    | none => .error (.translation ("invalid call: operator not supported: " ++ op))
    | some sqlOp =>
      match translateTerms args tbls with
      | .error e => .error e
      | .ok (tbls', ops) => .ok (tbls', .callO sqlOp ops)
  | t, _ => .error (.translation ("invalid term: type not supported: " ++ className t))

/-- Resolve a list of operand terms in order, threading the touched-table
set (each term contributes exactly one operand). -/
def translateTerms : List Term → Finset Value → Except Err (Finset Value × List Operand)
  | [], tbls => .ok (tbls, [])
  | t :: ts, tbls =>
    match translateTerm t tbls with
    | .error e => .error e
    | .ok (tbls', o) =>
      match translateTerms ts tbls' with
      | .error e => .error e
      | .ok (tbls'', os) => .ok (tbls'', o :: os)

end

/-- `queryTranslator._translate_expr`: bare exprs contribute nothing; a
call expr must have exactly two operands (checked before operator
resolution), its operator must be a supported relational operator, and
the two resolved operands are combined, in their original order, into a
Relation pushed on the relation stack. -/
def translateExpr : Expr → TQState → Except Err TQState
  | .bare _, s => .ok s
  | .callE op args, s =>
    match args with
    | [a, b] =>
      match sqlRelationOperators op with
      | none => .error (.translation ("invalid expression: operator not supported: " ++ op))
      | some sqlOp =>
        match translateTerm a s.tables with
        | .error e => .error e
        | .ok (t1, l) =>
          match translateTerm b t1 with
          | .error e => .error e
          | .ok (t2, r) => .ok ⟨t2, s.relations ++ [.relation sqlOp l r]⟩
    | _ => .error (.translation "invalid expression: too many arguments")

/-- Translate a query's exprs in order, threading the per-Query state. -/
def translateExprs : List Expr → TQState → Except Err TQState
  | [], s => .ok s
  | e :: es, s =>
    match translateExpr e s with
    | .error err => .error err
    | .ok s' => translateExprs es s'

/-- Classification of one translated Query: either a single-table
Conjunction, or a join entry (touched tables minus the from-table, with
the full Conjunction as ON-condition). -/
def classifyQuery (ft : Option String) (q : Query) :
    Except Err (Condition ⊕ (Finset Value × Condition)) :=
  match translateExprs q ⟨∅, []⟩ with
  | .error e => .error e
  | .ok s =>
    let conj := Condition.conjunction s.relations
    if 1 < s.tables.card then
      match ft with
      | some f =>
        if Value.str f ∈ s.tables then .ok (.inr (s.tables.erase (.str f), conj))
        else .error .keyError
      | none => .error .keyError
    else .ok (.inl conj)

/-- `queryTranslator._translate_query`: translate the exprs from fresh
per-Query state, AND the relations into a Conjunction, then push it on
the conjunction stack (at most one table touched) or, after removing the
from-table from the touched set (an absent from-table raises a Python
`KeyError`, since `set.remove` is unguarded), push the join entry. -/
def translateQuery (ft : Option String) (gs : GState) (q : Query) : Except Err GState :=
  match classifyQuery ft q with
  | .error e => .error e
  | .ok (.inl conj) => .ok { gs with conjunctions := gs.conjunctions ++ [conj] }
  | .ok (.inr j) => .ok { gs with joins := gs.joins ++ [j] }

/-- Translate the queries of a query set in order, threading the
cross-Query state. -/
def translateQueries (ft : Option String) (gs : GState) : QuerySet → Except Err GState
  | [] => .ok gs
  | q :: qs =>
    match translateQuery ft gs q with
    | .error e => .error e
    | .ok gs' => translateQueries ft gs' qs

/-- Classify every query of a query set, in order. -/
def classifyQueries (ft : Option String) : QuerySet →
    Except Err (List (Condition ⊕ (Finset Value × Condition)))
  | [] => .ok []
  | q :: qs =>
    match classifyQuery ft q with
    | .error e => .error e
    | .ok o =>
      match classifyQueries ft qs with
      | .error e => .error e
      | .ok os => .ok (o :: os)

/-- `queryTranslator.translate`: walk the query set, then assemble the
Union: one Where clause holding the Disjunction of all single-table
Conjunctions (if any), followed by one InnerJoin per join entry. -/
def translate (ft : Option String) (qs : QuerySet) : Except Err Union :=
  match translateQueries ft ⟨[], []⟩ qs with
  | .error e => .error e
  | .ok gs =>
    let base := if gs.conjunctions.isEmpty then []
      else [Clause.whereC (.disjunction gs.conjunctions)]
    .ok (base ++ gs.joins.map fun j => Clause.innerJoin j.1 j.2)

/-- `opa.compile`, from the point where the evaluator's queries are in
hand: an empty query list is NeverDefined; a query list containing an
empty query is AlwaysDefined with no filter; otherwise the query set is
preprocessed and translated into SQL clauses. -/
def compile (queries : QuerySet) (fromTable : Option String) : Except Err Result :=
  if queries.length = 0 then .ok ⟨false, none⟩
  else if queries.any (fun q => q.length == 0) then .ok ⟨true, none⟩
  else
    match preprocessQuerySet queries with
    | .error e => .error e
    | .ok qs =>
      match translate fromTable qs with
      | .error e => .error e
      | .ok u => .ok ⟨true, some u⟩

/-- Injective encoding of `Value`, used only to equip values with a
linear order for the sorted rendering of join-table sets. -/
def Value.encode : Value → ℕ ×ₗ (String ×ₗ (Int ×ₗ Bool))
  | .str s => toLex (0, toLex (s, toLex (0, false)))
  | .int n => toLex (1, toLex ("", toLex (n, false)))
  | .bool b => toLex (2, toLex ("", toLex (0, b)))

theorem Value.encode_injective : Function.Injective Value.encode := by
  intro a b h
  cases a <;> cases b <;>
    simp only [Value.encode, toLex_inj, Prod.mk.injEq] at h <;> simp_all

instance : LinearOrder Value := LinearOrder.lift' Value.encode Value.encode_injective

/-- Modelled from the spec: the SQL rendering of an InnerJoin clause
(module `data_filter_example/sql.py`, not in this tree) visits its
joined-table set in a stable sorted order, so repeated translation
renders deterministically. -/
def sqlTableOrder (ts : Finset Value) : List Value := ts.sort (· ≤ ·)

/-- The database schema visible to the sqlalchemy engine: each table name
with its column names. -/
abbrev Schema := List (String × List String)

/-- `sa.Table(name, meta, autoload_with=engine)`: reflect a table's
columns, failing (sqlalchemy `NoSuchTableError`) if it does not exist. -/
def Schema.lookupTable (sc : Schema) (t : String) : Option (List String) :=
  lookupA sc t

/-- An operand value handled by `SqlAlchemyQueryTranslator`: a reflected
`sa.Column`, a plain Python constant, or a `sa.sql.functions.Function`
application. -/
inductive SAOperand where
  | column (table name : String)
  | constant (v : Value)
  | func (name : String) (args : List SAOperand)

mutual

/-- Decidable equality of sqlalchemy operands (hand-written for the
nested list). -/
def SAOperand.decEq : (a b : SAOperand) → Decidable (a = b)
  | .column t n, .column t' n' =>
    if h : t = t' then
      if h2 : n = n' then .isTrue (h ▸ h2 ▸ rfl)
      else .isFalse (fun hh => h2 (SAOperand.column.inj hh).2)
    else .isFalse (fun hh => h (SAOperand.column.inj hh).1)
  | .constant v, .constant w =>
    if h : v = w then .isTrue (h ▸ rfl)
    else .isFalse (fun hh => h (SAOperand.constant.inj hh))
  | .func f xs, .func g ys =>
    if h : f = g then
      match SAOperand.decEqList xs ys with
      | .isTrue h2 => .isTrue (h ▸ h2 ▸ rfl)
      | .isFalse h2 => .isFalse (fun hh => h2 (SAOperand.func.inj hh).2)
    else .isFalse (fun hh => h (SAOperand.func.inj hh).1)
  | .column _ _, .constant _ => .isFalse (fun h => SAOperand.noConfusion h)
  | .column _ _, .func _ _ => .isFalse (fun h => SAOperand.noConfusion h)
  | .constant _, .column _ _ => .isFalse (fun h => SAOperand.noConfusion h)
  | .constant _, .func _ _ => .isFalse (fun h => SAOperand.noConfusion h)
  | .func _ _, .column _ _ => .isFalse (fun h => SAOperand.noConfusion h)
  | .func _ _, .constant _ => .isFalse (fun h => SAOperand.noConfusion h)

/-- Decidable equality of sqlalchemy operand lists. -/
def SAOperand.decEqList : (a b : List SAOperand) → Decidable (a = b)
  | [], [] => .isTrue rfl
  | [], _ :: _ => .isFalse (fun h => List.noConfusion h)
  | _ :: _, [] => .isFalse (fun h => List.noConfusion h)
  | x :: xs, y :: ys =>
    match SAOperand.decEq x y with
    | .isTrue h1 =>
      match SAOperand.decEqList xs ys with
      | .isTrue h2 => .isTrue (h1 ▸ h2 ▸ rfl)
      | .isFalse h2 => .isFalse (fun h => h2 (List.cons.inj h).2)
    | .isFalse h1 => .isFalse (fun h => h1 (List.cons.inj h).1)

end

instance : DecidableEq SAOperand := SAOperand.decEq

/-- The test `isinstance(sql_operands[0], (sa.Column,
sa.sql.functions.Function))` used by the sqlalchemy backend to decide
whether the first resolved operand is column-like. -/
def SAOperand.columnLike : SAOperand → Bool
  | .column _ _ => true
  | .func _ _ => true
  | .constant _ => false

/-- A boolean sqlalchemy expression: a binary relation built by a
`ColumnOperators` method (identified here by its SQL operator text), or
an `sa.and_` / `sa.or_` combination. -/
inductive SAExpr where
  | rel (op : String) (l r : SAOperand)
  | andE (es : List SAExpr)
  | orE (es : List SAExpr)

mutual

/-- Decidable equality of sqlalchemy expressions (hand-written for the
nested lists). -/
def SAExpr.decEq : (a b : SAExpr) → Decidable (a = b)
  | .rel o l r, .rel o' l' r' =>
    if h : o = o' then
      if h2 : l = l' then
        if h3 : r = r' then .isTrue (h ▸ h2 ▸ h3 ▸ rfl)
        else .isFalse (fun hh => h3 (SAExpr.rel.inj hh).2.2)
      else .isFalse (fun hh => h2 (SAExpr.rel.inj hh).2.1)
    else .isFalse (fun hh => h (SAExpr.rel.inj hh).1)
  | .andE xs, .andE ys =>
    match SAExpr.decEqList xs ys with
    | .isTrue h => .isTrue (h ▸ rfl)
    | .isFalse h => .isFalse (fun hh => h (SAExpr.andE.inj hh))
  | .orE xs, .orE ys =>
    match SAExpr.decEqList xs ys with
    | .isTrue h => .isTrue (h ▸ rfl)
    | .isFalse h => .isFalse (fun hh => h (SAExpr.orE.inj hh))
  | .rel _ _ _, .andE _ => .isFalse (fun h => SAExpr.noConfusion h)
  | .rel _ _ _, .orE _ => .isFalse (fun h => SAExpr.noConfusion h)
  | .andE _, .rel _ _ _ => .isFalse (fun h => SAExpr.noConfusion h)
  | .andE _, .orE _ => .isFalse (fun h => SAExpr.noConfusion h)
  | .orE _, .rel _ _ _ => .isFalse (fun h => SAExpr.noConfusion h)
  | .orE _, .andE _ => .isFalse (fun h => SAExpr.noConfusion h)

/-- Decidable equality of sqlalchemy expression lists. -/
def SAExpr.decEqList : (a b : List SAExpr) → Decidable (a = b)
  | [], [] => .isTrue rfl
  | [], _ :: _ => .isFalse (fun h => List.noConfusion h)
  | _ :: _, [] => .isFalse (fun h => List.noConfusion h)
  | x :: xs, y :: ys =>
    match SAExpr.decEq x y with
    | .isTrue h1 =>
      match SAExpr.decEqList xs ys with
      | .isTrue h2 => .isTrue (h1 ▸ h2 ▸ rfl)
      | .isFalse h2 => .isFalse (fun h => h2 (List.cons.inj h).2)
    | .isFalse h1 => .isFalse (fun h => h1 (List.cons.inj h).1)

end

instance : DecidableEq SAExpr := SAExpr.decEq

/-- `SqlAlchemyQueryTranslator._sql_relation_operators`: the same
supported operator keys, mapped to `ColumnOperators` comparison methods
(identified here by the SQL operator text they render to). -/
def saRelationOperators (op : String) : Option String :=
  if op = "eq" then some "="
  else if op = "equal" then some "="
  else if op = "neq" then some "!="
  else if op = "lt" then some "<"
  else if op = "gt" then some ">"
  else if op = "lte" then some "<="
  else if op = "gte" then some ">="
  else none

/-- `SqlAlchemyQueryTranslator._sql_call_operators`: `abs` maps to
`sa.func.abs`. -/
def saCallOperators (op : String) : Option String :=
  if op = "abs" then some "abs" else none

mutual

/-- `SqlAlchemyQueryTranslator._translate_term`: a scalar passes through
as a plain constant; a 3-segment ref reflects its table (adding it to the
touched set first) and looks the column up in the reflected table,
raising `TranslationError` for an unknown column; a nested call with a
supported operator resolves its operands and asserts that exactly one
operand was produced; anything else raises `TranslationError` naming the
value's kind. -/
def saTranslateTerm (sc : Schema) :
    Term → Finset String → Except Err (Finset String × SAOperand)
  | .scalar v, tbls => .ok (tbls, .constant v)
  | .ref [_, s1, s2], tbls =>
    match termKeyStr s1 with
    | .error e => .error e
    | .ok table =>
      let tbls' := insert table tbls
      match sc.lookupTable table with
      | none => .error (.noSuchTable table)
      | some cols =>
        match termKeyStr s2 with
        | .error e => .error e
        | .ok col =>
          if col ∈ cols then .ok (tbls', .column table col)
          else .error (.translation ("invalid column: column not recognized: " ++ col))
  | .call op args, tbls =>
    match saCallOperators op with
    | none => .error (.translation ("invalid call: operator not supported: " ++ op))
    | some sqlOp =>
      match saTranslateTerms sc args tbls with
      | .error e => .error e
      | .ok (tbls', ops) =>
        match ops with
        | [x] => .ok (tbls', .func sqlOp [x])
        | _ => .error .assertionError
  | t, _ => .error (.translation ("invalid term: type not supported: " ++ className t))

/-- Resolve a list of operand terms in order for the sqlalchemy backend,
threading the touched-table set. -/
def saTranslateTerms (sc : Schema) :
    List Term → Finset String → Except Err (Finset String × List SAOperand)
  | [], tbls => .ok (tbls, [])
  | t :: ts, tbls =>
    match saTranslateTerm sc t tbls with
    | .error e => .error e
    | .ok (tbls', o) =>
      match saTranslateTerms sc ts tbls' with
      | .error e => .error e
      | .ok (tbls'', os) => .ok (tbls'', o :: os)

end

/-- Per-Query state of `SqlAlchemyQueryTranslator`. -/
structure SAQState where
  tables : Finset String
  relations : List SAExpr
deriving DecidableEq

/-- Cross-Query state of `SqlAlchemyQueryTranslator`. -/
structure SAGState where
  conjunctions : List SAExpr
  joins : List (Finset String × SAExpr)
deriving DecidableEq

/-- `SqlAlchemyQueryTranslator._translate_expr`: same arity and operator
checks as the portable backend, but if the first resolved operand is not
column-like the operand pair is reversed before the relation is built
(the comparison method itself is not flipped). -/
def saTranslateExpr (sc : Schema) : Expr → SAQState → Except Err SAQState
  | .bare _, s => .ok s
  | .callE op args, s =>
    match args with
    | [a, b] =>
      match saRelationOperators op with
      | none => .error (.translation ("invalid expression: operator not supported: " ++ op))
      | some sqlOp =>
        match saTranslateTerm sc a s.tables with
        | .error e => .error e
        | .ok (t1, o1) =>
          match saTranslateTerm sc b t1 with
          | .error e => .error e
          | .ok (t2, o2) =>
            let pair := if o1.columnLike then (o1, o2) else (o2, o1)
            .ok ⟨t2, s.relations ++ [.rel sqlOp pair.1 pair.2]⟩
    | _ => .error (.translation "invalid expression: too many arguments")

/-- Translate a query's exprs in order for the sqlalchemy backend. -/
def saTranslateExprs (sc : Schema) : List Expr → SAQState → Except Err SAQState
  | [], s => .ok s
  | e :: es, s =>
    match saTranslateExpr sc e s with
    | .error err => .error err
    | .ok s' => saTranslateExprs sc es s'

/-- `SqlAlchemyQueryTranslator._translate_query`: AND the relations, then
push either a single-table conjunction or, after removing the from-table
from the touched set (absent from-table: unguarded `set.remove`, a Python
`KeyError`), a join entry. -/
def saTranslateQuery (sc : Schema) (ft : String) (gs : SAGState) (q : Query) :
    Except Err SAGState :=
  match saTranslateExprs sc q ⟨∅, []⟩ with
  | .error e => .error e
  | .ok s =>
    let conj := SAExpr.andE s.relations
    if 1 < s.tables.card then
      if ft ∈ s.tables then
        .ok { gs with joins := gs.joins ++ [(s.tables.erase ft, conj)] }
      else .error .keyError
    else .ok { gs with conjunctions := gs.conjunctions ++ [conj] }

/-- C1: when the evaluator returns an empty sequence of Queries, `compile`
returns the NeverDefined outcome — `defined = false`, `sql = none` — for
every from-table.  The early return precedes the construction of the
query set, so neither the preprocessor nor the translator is invoked; in
particular no translation error is possible and the result does not
depend on the from-table. -/
theorem claim_C1_empty_queries_never_defined (ft : Option String) :
    compile [] ft = .ok ⟨false, none⟩ := rfl

/-- C2: a query set containing at least one Query with zero Exprs makes
`compile` return the AlwaysDefined outcome — `defined = true`,
`sql = none` — regardless of the other Queries' contents: the check
precedes preprocessing and translation, so no translation error from the
other Queries can surface. -/
theorem claim_C2_empty_query_always_defined (qs : QuerySet) (ft : Option String)
    (h : [] ∈ qs) : compile qs ft = .ok ⟨true, none⟩ := by
  have hne : ¬qs.length = 0 := by
    cases qs with
    | nil => cases h
    | cons a l => simp
  have hany : qs.any (fun q => q.length == 0) = true := by
    simp only [List.any_eq_true]
    exact ⟨[], h, by simp⟩
  simp [compile, hne, hany]

/-- C2 witness: the query set holds an empty Query next to a Query that
would fail preprocessing (its ref's row identifier is not a variable),
and `compile` still answers AlwaysDefined. -/
theorem claim_C2_empty_query_always_defined_witness :
    [] ∈ ([[.bare (.ref [.var "data", .scalar (.str "q"), .scalar (.str "foo")])], []] : QuerySet) ∧
    compile [[.bare (.ref [.var "data", .scalar (.str "q"), .scalar (.str "foo")])], []]
      (some "q") = .ok ⟨true, none⟩ :=
  ⟨by decide, claim_C2_empty_query_always_defined _ (some "q") (by decide)⟩

/-- C3: for a Call-Expr, both translators check the operand count first —
any count other than two raises the wrong-operand-count
`TranslationError` (InvalidArity), even when the operator is unknown —
then resolve the operator against the supported relational set, raising
the unsupported-operator `TranslationError` naming the operator when it
is outside `{eq, equal, neq, lt, gt, lte, gte}`, and otherwise build the
Relation with the mapped SQL operator `=`, `=`, `!=`, `<`, `>`, `<=`,
`>=` respectively (both backends use the same operator table). -/
theorem claim_C3_relational_dispatch (op : String) (args : List Term)
    (s : TQState) (sc : Schema) (sas : SAQState) :
    (args.length ≠ 2 →
      translateExpr (.callE op args) s =
        .error (.translation "invalid expression: too many arguments") ∧
      saTranslateExpr sc (.callE op args) sas =
        .error (.translation "invalid expression: too many arguments")) ∧
    (op ∉ (["eq", "equal", "neq", "lt", "gt", "lte", "gte"] : List String) →
      ∀ a b : Term,
        translateExpr (.callE op [a, b]) s =
          .error (.translation ("invalid expression: operator not supported: " ++ op)) ∧
        saTranslateExpr sc (.callE op [a, b]) sas =
          .error (.translation ("invalid expression: operator not supported: " ++ op))) ∧
    (∀ (sqlOp : String) (a b : Term) (t1 t2 : Finset Value) (l r : Operand),
      sqlRelationOperators op = some sqlOp →
      translateTerm a s.tables = .ok (t1, l) → translateTerm b t1 = .ok (t2, r) →
      translateExpr (.callE op [a, b]) s =
        .ok ⟨t2, s.relations ++ [.relation sqlOp l r]⟩) ∧
    saRelationOperators = sqlRelationOperators ∧
    (sqlRelationOperators "eq" = some "=" ∧ sqlRelationOperators "equal" = some "=" ∧
     sqlRelationOperators "neq" = some "!=" ∧ sqlRelationOperators "lt" = some "<" ∧
     sqlRelationOperators "gt" = some ">" ∧ sqlRelationOperators "lte" = some "<=" ∧
     sqlRelationOperators "gte" = some ">=" ∧
     ∀ o : String, o ∉ (["eq", "equal", "neq", "lt", "gt", "lte", "gte"] : List String) →
       sqlRelationOperators o = none) := by
  have hnone : ∀ o : String,
      o ∉ (["eq", "equal", "neq", "lt", "gt", "lte", "gte"] : List String) →
      sqlRelationOperators o = none := by
    intro o ho
    simp only [List.mem_cons, List.not_mem_nil, or_false, not_or] at ho
    obtain ⟨h1, h2, h3, h4, h5, h6, h7⟩ := ho
    simp [sqlRelationOperators, h1, h2, h3, h4, h5, h6, h7]
  refine ⟨?_, ?_, ?_, ?_, ?_⟩
  · intro hlen
    constructor
    · match args with
      | [] => rfl
      | [_] => rfl
      | [_, _] => exact absurd rfl hlen
      | _ :: _ :: _ :: _ => rfl
    · match args with
      | [] => rfl
      | [_] => rfl
      | [_, _] => exact absurd rfl hlen
      | _ :: _ :: _ :: _ => rfl
  · intro hnotin a b
    have hop : sqlRelationOperators op = none := hnone op hnotin
    have hop2 : saRelationOperators op = none := hop
    constructor
    · simp [translateExpr, hop]
    · simp [saTranslateExpr, hop2]
  · intro sqlOp a b t1 t2 l r hop h1 h2
    simp [translateExpr, hop, h1, h2]
  · rfl
  · exact ⟨rfl, rfl, rfl, rfl, rfl, rfl, rfl, hnone⟩

/-- C3 witness: a three-operand call with an unknown operator reports the
arity error; a two-operand unknown operator reports the unsupported
operator; `lt` maps to `<`. -/
theorem claim_C3_relational_dispatch_witness :
    (translateExpr (.callE "plus" [.scalar (.int 1), .scalar (.int 2), .scalar (.int 3)])
        ⟨∅, []⟩ = .error (.translation "invalid expression: too many arguments")) ∧
    (translateExpr (.callE "count" [.scalar (.int 1), .scalar (.int 2)]) ⟨∅, []⟩ =
      .error (.translation ("invalid expression: operator not supported: " ++ "count"))) ∧
    (translateExpr (.callE "lt" [.scalar (.int 1), .scalar (.int 2)]) ⟨∅, []⟩ =
      .ok ⟨∅, [.relation "<" (.constant (.int 1)) (.constant (.int 2))]⟩) := by
  refine ⟨?_, ?_, ?_⟩
  · exact ((claim_C3_relational_dispatch "plus"
      [.scalar (.int 1), .scalar (.int 2), .scalar (.int 3)] ⟨∅, []⟩ [] ⟨∅, []⟩).1
      (by decide)).1
  · exact (((claim_C3_relational_dispatch "count"
      [.scalar (.int 1), .scalar (.int 2)] ⟨∅, []⟩ [] ⟨∅, []⟩).2.1
      (by decide) (.scalar (.int 1)) (.scalar (.int 2))).1)
  · exact ((claim_C3_relational_dispatch "lt"
      [.scalar (.int 1), .scalar (.int 2)] ⟨∅, []⟩ [] ⟨∅, []⟩).2.2.1
      "<" (.scalar (.int 1)) (.scalar (.int 2)) ∅ ∅
      (.constant (.int 1)) (.constant (.int 2)) (by decide) (by decide) (by decide))

/-- C4 counterexample: in the portable backend a Call-Expr whose left
operand resolves to a Constant and whose right operand resolves to a
Column keeps the Constant on the left — the emitted Relation is
`1 = q.a`, not Column-first, so the claim fails for the portable
backend. -/
theorem claim_C4_counterexample :
    translateExpr
      (.callE "eq" [.scalar (.int 1),
        .ref [.var "data", .scalar (.str "q"), .scalar (.str "a")]]) ⟨∅, []⟩ =
    .ok ⟨{.str "q"}, [.relation "=" (.constant (.int 1))
      (.column (.str "q") (.str "a"))]⟩ := by decide

/-- C4 (amended): only the schema-bound backend orders the pair
Column-first; the portable backend always keeps the operands in their
original order.  The schema-bound backend builds the Relation from the
resolved pair as-is when the first operand is column-like (a Column or a
Function) and swaps the pair otherwise, so when exactly one operand is a
Column and the other a Constant the Column ends up first there. -/
theorem claim_C4_operand_ordering (sc : Schema) (op sqlOp : String)
    (a b : Term) (s : TQState) (sas : SAQState) :
    (∀ (t1 t2 : Finset Value) (l r : Operand),
      sqlRelationOperators op = some sqlOp →
      translateTerm a s.tables = .ok (t1, l) → translateTerm b t1 = .ok (t2, r) →
      translateExpr (.callE op [a, b]) s =
        .ok ⟨t2, s.relations ++ [.relation sqlOp l r]⟩) ∧
    (∀ (t1 t2 : Finset String) (o1 o2 : SAOperand),
      saRelationOperators op = some sqlOp →
      saTranslateTerm sc a sas.tables = .ok (t1, o1) →
      saTranslateTerm sc b t1 = .ok (t2, o2) →
      (o1.columnLike = true →
        saTranslateExpr sc (.callE op [a, b]) sas =
          .ok ⟨t2, sas.relations ++ [.rel sqlOp o1 o2]⟩) ∧
      (o1.columnLike = false →
        saTranslateExpr sc (.callE op [a, b]) sas =
          .ok ⟨t2, sas.relations ++ [.rel sqlOp o2 o1]⟩)) := by
  constructor
  · intro t1 t2 l r hop h1 h2
    simp [translateExpr, hop, h1, h2]
  · intro t1 t2 o1 o2 hop h1 h2
    constructor
    · intro hcol
      simp [saTranslateExpr, hop, h1, h2, hcol]
    · intro hcol
      simp [saTranslateExpr, hop, h1, h2, hcol]

/-- C4 (amended) witness: with schema `q(a)`, the schema-bound backend
swaps `1 = q.a` into `q.a = 1` (Column first), while the portable
backend keeps the Constant first on the same input. -/
theorem claim_C4_operand_ordering_witness :
    (translateExpr
      (.callE "eq" [.scalar (.int 2),
        .ref [.var "data", .scalar (.str "q"), .scalar (.str "a")]]) ⟨∅, []⟩ =
      .ok ⟨{.str "q"}, [.relation "=" (.constant (.int 2))
        (.column (.str "q") (.str "a"))]⟩) ∧
    (saTranslateExpr [("q", ["a"])]
      (.callE "eq" [.scalar (.int 2),
        .ref [.var "data", .scalar (.str "q"), .scalar (.str "a")]]) ⟨∅, []⟩ =
      .ok ⟨{"q"}, [.rel "=" (.column "q" "a") (.constant (.int 2))]⟩) := by
  constructor
  · exact (claim_C4_operand_ordering [] "eq" "=" (.scalar (.int 2))
      (.ref [.var "data", .scalar (.str "q"), .scalar (.str "a")]) ⟨∅, []⟩ ⟨∅, []⟩).1
      ∅ {.str "q"} (.constant (.int 2)) (.column (.str "q") (.str "a"))
      (by decide) (by decide) (by decide)
  · exact ((claim_C4_operand_ordering [("q", ["a"])] "eq" "=" (.scalar (.int 2))
      (.ref [.var "data", .scalar (.str "q"), .scalar (.str "a")]) ⟨∅, []⟩ ⟨∅, []⟩).2
      ∅ {"q"} (.constant (.int 2)) (.column "q" "a")
      (by decide) (by decide) (by decide)).2 (by decide)

/-- C5: the preprocessor fails with the self-join `TranslationError` when
a ref binds a table that the current Query's scope already binds to a
different iterator variable; the binding scope is pushed afresh at each
Query, so the same table bound to distinct iterators in two *different*
Queries of one set preprocesses successfully, while the same two
bindings inside one Query fail. -/
theorem claim_C5_self_join_detection :
    (∀ (scope : List (Value × String)) (outer : List (List (Value × String)))
       (tv : List (String × List Term)) (s0 s1 : Term) (rest : List Term)
       (hk tn : Value) (x y : String),
      termKey s0 = .ok hk → lookupVar tv hk = none →
      termKey s1 = .ok tn →
      lookupA scope tn = some y → y ≠ x →
      preprocessRef ⟨scope :: outer, tv⟩ (s0 :: s1 :: .var x :: rest) =
        .error (.translation "invalid reference: self-joins not supported")) ∧
    (∀ t x y : String, x ≠ y →
      preprocessQuerySet
        [[.bare (.ref [.var "data", .scalar (.str t), .var x])],
         [.bare (.ref [.var "data", .scalar (.str t), .var y])]] =
      .ok [[.bare (.ref [.var "data", .scalar (.str t)])],
           [.bare (.ref [.var "data", .scalar (.str t)])]]) ∧
    (∀ t x y : String, x ≠ y → x ≠ "data" →
      preprocessQuerySet
        [[.bare (.ref [.var "data", .scalar (.str t), .var x]),
          .bare (.ref [.var "data", .scalar (.str t), .var y])]] =
      .error (.translation "invalid reference: self-joins not supported")) := by
  refine ⟨?_, ?_, ?_⟩
  · intro scope outer tv s0 s1 rest hk tn x y h1 h2 h3 h4 h5
    simp [preprocessRef, h1, h2, h3, h4, h5]
  · intro t x y _
    simp [preprocessQuerySet, preprocessQueries, preprocessQuery, preprocessExprs,
      preprocessExpr, preprocessTerm, preprocessRef, termKey, lookupVar, lookupA,
      updateA]
  · intro t x y hxy hxd
    simp [preprocessQuerySet, preprocessQueries, preprocessQuery, preprocessExprs,
      preprocessExpr, preprocessTerm, preprocessRef, termKey, lookupVar, lookupA,
      updateA, hxy, hxd]

/-- C5 witness: the general self-join failure at a concrete state and
ref; cross-Query reuse of table `q` with iterators `x` then `y`
succeeds; the same two bindings inside one Query fail. -/
theorem claim_C5_self_join_detection_witness :
    (preprocessRef ⟨[[(.str "q", "x")]], []⟩
        [.var "data", .scalar (.str "q"), .var "y"] =
      .error (.translation "invalid reference: self-joins not supported")) ∧
    (preprocessQuerySet
        [[.bare (.ref [.var "data", .scalar (.str "q"), .var "x"])],
         [.bare (.ref [.var "data", .scalar (.str "q"), .var "y"])]] =
      .ok [[.bare (.ref [.var "data", .scalar (.str "q")])],
           [.bare (.ref [.var "data", .scalar (.str "q")])]]) ∧
    (preprocessQuerySet
        [[.bare (.ref [.var "data", .scalar (.str "q"), .var "x"]),
          .bare (.ref [.var "data", .scalar (.str "q"), .var "y"])]] =
      .error (.translation "invalid reference: self-joins not supported")) := by
  refine ⟨?_, ?_, ?_⟩
  · exact claim_C5_self_join_detection.1 [(.str "q", "x")] [] []
      (.var "data") (.scalar (.str "q")) [] (.str "data") (.str "q") "y" "x"
      (by decide) (by decide) (by decide) (by decide) (by decide)
  · exact claim_C5_self_join_detection.2.1 "q" "x" "y" (by decide)
  · exact claim_C5_self_join_detection.2.2 "q" "x" "y" (by decide) (by decide)

/-- C6: a ref whose leading segment's key is bound in the current Query's
variable map is rewritten to the bound 2-segment prefix followed by the
ref's remaining segments, with the preprocessor state unchanged; as a
consequence an alias use (`data.q[x]` binding `x`, then `x.a`) and the
direct reference `data.q[i].a` both end at the same canonical 3-segment
ref `data.q.a`. -/
theorem claim_C6_alias_prefix_rewrite :
    (∀ (st : PState) (h0 : Term) (rest : List Term) (hk : Value) (prefx : List Term),
      termKey h0 = .ok hk → lookupVar st.tableVars hk = some prefx →
      preprocessRef st (h0 :: rest) = .ok (st, prefx ++ rest)) ∧
    (preprocessQuerySet
        [[.bare (.ref [.var "data", .scalar (.str "q"), .var "x"]),
          .callE "eq" [.ref [.var "x", .scalar (.str "a")], .scalar (.int 1)]]] =
      .ok [[.bare (.ref [.var "data", .scalar (.str "q")]),
            .callE "eq" [.ref [.var "data", .scalar (.str "q"), .scalar (.str "a")],
                         .scalar (.int 1)]]]) ∧
    (preprocessQuerySet
        [[.callE "eq" [.ref [.var "data", .scalar (.str "q"), .var "i", .scalar (.str "a")],
                       .scalar (.int 1)]]] =
      .ok [[.callE "eq" [.ref [.var "data", .scalar (.str "q"), .scalar (.str "a")],
                         .scalar (.int 1)]]]) := by
  refine ⟨?_, by decide, by decide⟩
  intro st h0 rest hk prefx h1 h2
  simp [preprocessRef, h1, h2]

/-- C6 witness: the general splice rule applied at a concrete bound
variable: `x.b` becomes `data.q.b` under the binding of `x` to the
prefix `data.q`. -/
theorem claim_C6_alias_prefix_rewrite_witness :
    preprocessRef ⟨[[(.str "q", "x")]], [("x", [.var "data", .scalar (.str "q")])]⟩
        [.var "x", .scalar (.str "b")] =
      .ok (⟨[[(.str "q", "x")]], [("x", [.var "data", .scalar (.str "q")])]⟩,
        [.var "data", .scalar (.str "q"), .scalar (.str "b")]) :=
  claim_C6_alias_prefix_rewrite.1
    ⟨[[(.str "q", "x")]], [("x", [.var "data", .scalar (.str "q")])]⟩
    (.var "x") [.scalar (.str "b")] (.str "x") [.var "data", .scalar (.str "q")]
    (by decide) (by decide)

/-- C7: for a ref whose leading segment is not a bound variable, a
non-Var third segment raises the row-identifier `TranslationError`
naming the segment value's kind; a Var third segment records the
variable-to-prefix mapping, binds the table to the iterator in the
current scope — whether the table was unbound or already bound to this
same iterator, as on a repeated access like a second `data.q[x].b` —
and rewrites the ref by dropping the iterator segment
(`data.foo[x].bar` becomes `data.foo.bar`). -/
theorem claim_C7_row_identifier :
    (∀ (st : PState) (s0 s1 s2 : Term) (rest : List Term) (hk : Value),
      termKey s0 = .ok hk → lookupVar st.tableVars hk = none →
      (∀ x, s2 ≠ .var x) →
      preprocessRef st (s0 :: s1 :: s2 :: rest) =
        .error (.translation
          ("invalid reference: row identifier type not supported: " ++ className s2))) ∧
    (∀ (scope : List (Value × String)) (outer : List (List (Value × String)))
       (tv : List (String × List Term)) (s0 s1 : Term) (rest : List Term)
       (hk tn : Value) (x : String),
      termKey s0 = .ok hk → lookupVar tv hk = none →
      termKey s1 = .ok tn →
      lookupA scope tn = none ∨ lookupA scope tn = some x →
      preprocessRef ⟨scope :: outer, tv⟩ (s0 :: s1 :: .var x :: rest) =
        .ok (⟨updateA scope tn x :: outer, updateA tv x [s0, s1]⟩, [s0, s1] ++ rest)) := by
  constructor
  · intro st s0 s1 s2 rest hk h1 h2 h3
    match st with
    | ⟨tns, tv⟩ =>
      cases s2 with
      | var x => exact absurd rfl (h3 x)
      | scalar v => simp [preprocessRef, h1, h2, className]
      | ref segs => simp [preprocessRef, h1, h2, className]
      | call o as => simp [preprocessRef, h1, h2, className]
  · intro scope outer tv s0 s1 rest hk tn x h1 h2 h3 h4
    cases h4 with
    | inl h4 => simp [preprocessRef, h1, h2, h3, h4]
    | inr h4 => simp [preprocessRef, h1, h2, h3, h4]

/-- C7 witness: `data.q.foo.bar` (third segment a Scalar) reports the
Scalar kind; `data.q[x].bar` on an unbound table records the bindings
and drops the iterator segment; a repeated access `data.q[x].b` — the
table already bound to the same iterator `x` — succeeds by the same
record-and-rewrite path. -/
theorem claim_C7_row_identifier_witness :
    (preprocessRef ⟨[[]], []⟩
        [.var "data", .scalar (.str "q"), .scalar (.str "foo"), .scalar (.str "bar")] =
      .error (.translation
        ("invalid reference: row identifier type not supported: " ++ "Scalar"))) ∧
    (preprocessRef ⟨[[]], []⟩
        [.var "data", .scalar (.str "q"), .var "x", .scalar (.str "bar")] =
      .ok (⟨[[(.str "q", "x")]], [("x", [.var "data", .scalar (.str "q")])]⟩,
        [.var "data", .scalar (.str "q"), .scalar (.str "bar")])) ∧
    (preprocessRef ⟨[[(.str "q", "x")]], [("x", [.var "data", .scalar (.str "q")])]⟩
        [.var "data", .scalar (.str "q"), .var "x", .scalar (.str "b")] =
      .ok (⟨[[(.str "q", "x")]], [("x", [.var "data", .scalar (.str "q")])]⟩,
        [.var "data", .scalar (.str "q"), .scalar (.str "b")])) := by
  refine ⟨?_, ?_, ?_⟩
  · exact claim_C7_row_identifier.1 ⟨[[]], []⟩ (.var "data") (.scalar (.str "q"))
      (.scalar (.str "foo")) [.scalar (.str "bar")] (.str "data")
      (by decide) (by decide) (by intro x h; cases h)
  · exact claim_C7_row_identifier.2 [] [] [] (.var "data") (.scalar (.str "q"))
      [.scalar (.str "bar")] (.str "data") (.str "q") "x"
      (by decide) (by decide) (by decide) (by decide)
  · exact claim_C7_row_identifier.2 [(.str "q", "x")] []
      [("x", [.var "data", .scalar (.str "q")])] (.var "data") (.scalar (.str "q"))
      [.scalar (.str "b")] (.str "data") (.str "q") "x"
      (by decide) (by decide) (by decide) (by decide)

/-- The single-table Conjunctions among a list of per-Query
classifications, in order. -/
def sumLefts (outs : List (Condition ⊕ (Finset Value × Condition))) : List Condition :=
  outs.filterMap fun o => match o with | .inl c => some c | .inr _ => none

/-- The join entries among a list of per-Query classifications, in
order. -/
def sumRights (outs : List (Condition ⊕ (Finset Value × Condition))) :
    List (Finset Value × Condition) :=
  outs.filterMap fun o => match o with | .inl _ => none | .inr j => some j

/-- Folding the translator over the queries accumulates exactly the
per-Query classifications: the conjunction stack receives every
single-table Conjunction and the join stack every join entry, each in
query order. -/
theorem translateQueries_characterization (ft : Option String) :
    ∀ (qs : QuerySet) (gs gs' : GState),
      translateQueries ft gs qs = .ok gs' →
      ∃ outs, classifyQueries ft qs = .ok outs ∧
        gs' = ⟨gs.conjunctions ++ sumLefts outs, gs.joins ++ sumRights outs⟩ := by
  intro qs
  induction qs with
  | nil =>
    intro gs gs' h
    simp only [translateQueries] at h
    injection h with h
    subst h
    exact ⟨[], rfl, by simp [sumLefts, sumRights]⟩
  | cons q qs ih =>
    intro gs gs' h
    simp only [translateQueries, translateQuery] at h
    cases hcq : classifyQuery ft q with
    | error e => rw [hcq] at h; cases h
    | ok o =>
      rw [hcq] at h
      cases o with
      | inl c =>
        simp only at h
        obtain ⟨outs, h1, h2⟩ := ih _ _ h
        refine ⟨.inl c :: outs, ?_, ?_⟩
        · simp [classifyQueries, hcq, h1]
        · rw [h2]
          simp [sumLefts, sumRights, List.filterMap_cons]
      | inr j =>
        simp only at h
        obtain ⟨outs, h1, h2⟩ := ih _ _ h
        refine ⟨.inr j :: outs, ?_, ?_⟩
        · simp [classifyQueries, hcq, h1]
        · rw [h2]
          simp [sumLefts, sumRights, List.filterMap_cons]

/-- C8: a successfully translated query set assembles its Union from the
per-Query classifications: the Disjunction of all single-table
Conjunctions (in query order) forms a single Where clause that is the
first Union member when any exist, and every multi-table Query
contributes its own InnerJoin member, in query order.  A multi-table
Query classifies to the join entry whose table set is the touched set
minus the from-table and whose ON-condition is the Query's full
Conjunction; a Query touching at most one table classifies to its
Conjunction.  The rendering of a join's table set visits the tables in
sorted order (sorted and equal to the stored set), so translating and
rendering the same query set repeatedly is deterministic. -/
theorem claim_C8_union_assembly (ft : Option String) (qs : QuerySet) (u : Union)
    (h : translate ft qs = .ok u) :
    (∃ outs, classifyQueries ft qs = .ok outs ∧
      u = (if (sumLefts outs).isEmpty then []
           else [Clause.whereC (.disjunction (sumLefts outs))]) ++
          (sumRights outs).map (fun j => Clause.innerJoin j.1 j.2)) ∧
    (∀ (q : Query) (s : TQState) (f : String),
      translateExprs q ⟨∅, []⟩ = .ok s → 1 < s.tables.card → .str f ∈ s.tables →
      classifyQuery (some f) q =
        .ok (.inr (s.tables.erase (.str f), .conjunction s.relations))) ∧
    (∀ (q : Query) (s : TQState),
      translateExprs q ⟨∅, []⟩ = .ok s → ¬1 < s.tables.card →
      classifyQuery ft q = .ok (.inl (.conjunction s.relations))) ∧
    (∀ ts : Finset Value,
      List.Sorted (· ≤ ·) (sqlTableOrder ts) ∧ (sqlTableOrder ts).toFinset = ts) := by
  refine ⟨?_, ?_, ?_, ?_⟩
  · simp only [translate] at h
    cases htq : translateQueries ft ⟨[], []⟩ qs with
    | error e => rw [htq] at h; cases h
    | ok gs =>
      rw [htq] at h
      simp only at h
      injection h with h
      obtain ⟨outs, h1, h2⟩ := translateQueries_characterization ft qs ⟨[], []⟩ gs htq
      refine ⟨outs, h1, ?_⟩
      rw [← h, h2]
      simp
  · intro q s f h1 h2 h3
    simp [classifyQuery, h1, h2, h3]
  · intro q s h1 h2
    simp [classifyQuery, h1, h2]
  · intro ts
    exact ⟨Finset.sort_sorted _ _, Finset.sort_toFinset _ _⟩

/-- C8 witness: a query set with one single-table Query (`q.a = 1`) and
one join Query (`q.a = r.b`), translated with from-table `q`, assembles
the Where clause first and the InnerJoin on `{r}` second. -/
theorem claim_C8_union_assembly_witness :
    ∃ outs,
      classifyQueries (some "q")
        [[.callE "eq" [.ref [.var "data", .scalar (.str "q"), .scalar (.str "a")],
                       .scalar (.int 1)]],
         [.callE "eq" [.ref [.var "data", .scalar (.str "q"), .scalar (.str "a")],
                       .ref [.var "data", .scalar (.str "r"), .scalar (.str "b")]]]] =
        .ok outs ∧
      ([Clause.whereC (.disjunction [.conjunction
          [.relation "=" (.column (.str "q") (.str "a")) (.constant (.int 1))]]),
        Clause.innerJoin {.str "r"} (.conjunction
          [.relation "=" (.column (.str "q") (.str "a"))
            (.column (.str "r") (.str "b"))])] : Union) =
        (if (sumLefts outs).isEmpty then []
         else [Clause.whereC (.disjunction (sumLefts outs))]) ++
        (sumRights outs).map (fun j => Clause.innerJoin j.1 j.2) :=
  (claim_C8_union_assembly (some "q")
    [[.callE "eq" [.ref [.var "data", .scalar (.str "q"), .scalar (.str "a")],
                   .scalar (.int 1)]],
     [.callE "eq" [.ref [.var "data", .scalar (.str "q"), .scalar (.str "a")],
                   .ref [.var "data", .scalar (.str "r"), .scalar (.str "b")]]]]
    [Clause.whereC (.disjunction [.conjunction
        [.relation "=" (.column (.str "q") (.str "a")) (.constant (.int 1))]]),
      Clause.innerJoin {.str "r"} (.conjunction
        [.relation "=" (.column (.str "q") (.str "a"))
          (.column (.str "r") (.str "b"))])]
    (by decide)).1

/-- C9 counterexample: the portable translator accepts a two-operand
`abs` nested call and emits a Call over both resolved operands — no
arity failure occurs, refuting the claimed InvalidArity error. -/
theorem claim_C9_counterexample :
    translateTerm (.call "abs" [.scalar (.int 1), .scalar (.int 2)]) ∅ =
      .ok (∅, .callO "abs" [.constant (.int 1), .constant (.int 2)]) := by decide

/-- C9 (amended): an unsupported nested-call operator raises the
unsupported-operator `TranslationError` naming it in both backends; for
a supported operator the portable backend performs no arity check and
emits a Call over all recursively resolved operands, while the
schema-bound backend fails its internal assertion (an `AssertionError`,
not a `TranslationError`) when the resolved operand count is not one and
otherwise emits the function applied to the single operand. -/
theorem claim_C9_nested_call_dispatch (sc : Schema) (op : String) (args : List Term)
    (tbls : Finset Value) (stbls : Finset String) :
    (op ≠ "abs" →
      translateTerm (.call op args) tbls =
        .error (.translation ("invalid call: operator not supported: " ++ op)) ∧
      saTranslateTerm sc (.call op args) stbls =
        .error (.translation ("invalid call: operator not supported: " ++ op))) ∧
    (∀ (tbls' : Finset Value) (ops : List Operand),
      translateTerms args tbls = .ok (tbls', ops) →
      translateTerm (.call "abs" args) tbls = .ok (tbls', .callO "abs" ops)) ∧
    (∀ (t' : Finset String) (ops : List SAOperand),
      saTranslateTerms sc args stbls = .ok (t', ops) → ops.length ≠ 1 →
      saTranslateTerm sc (.call "abs" args) stbls = .error .assertionError) ∧
    (∀ (t' : Finset String) (x : SAOperand),
      saTranslateTerms sc args stbls = .ok (t', [x]) →
      saTranslateTerm sc (.call "abs" args) stbls = .ok (t', .func "abs" [x])) := by
  have habs : sqlCallOperators "abs" = some "abs" := rfl
  have habs2 : saCallOperators "abs" = some "abs" := rfl
  refine ⟨?_, ?_, ?_, ?_⟩
  · intro hop
    have h1 : sqlCallOperators op = none := by simp [sqlCallOperators, hop]
    have h2 : saCallOperators op = none := by simp [saCallOperators, hop]
    exact ⟨by simp [translateTerm, h1], by simp [saTranslateTerm, h2]⟩
  · intro tbls' ops h
    simp [translateTerm, habs, h]
  · intro t' ops h hlen
    match ops with
    | [] => simp [saTranslateTerm, habs2, h]
    | [x] => exact absurd rfl hlen
    | x :: y :: r => simp [saTranslateTerm, habs2, h]
  · intro t' x h
    simp [saTranslateTerm, habs2, h]

/-- C9 (amended) witness: `count` is rejected by name in both backends; a
two-operand `abs` succeeds in the portable backend but fails the
schema-bound backend's assertion; a one-operand `abs` succeeds there. -/
theorem claim_C9_nested_call_dispatch_witness :
    (translateTerm (.call "count" [.scalar (.int 1)]) ∅ =
      .error (.translation ("invalid call: operator not supported: " ++ "count"))) ∧
    (translateTerm (.call "abs" [.scalar (.int 1), .scalar (.int 2)]) ∅ =
      .ok (∅, .callO "abs" [.constant (.int 1), .constant (.int 2)])) ∧
    (saTranslateTerm [] (.call "abs" [.scalar (.int 1), .scalar (.int 2)]) ∅ =
      .error .assertionError) ∧
    (saTranslateTerm [] (.call "abs" [.scalar (.int 1)]) ∅ =
      .ok (∅, .func "abs" [.constant (.int 1)])) := by
  refine ⟨?_, ?_, ?_, ?_⟩
  · exact ((claim_C9_nested_call_dispatch [] "count" [.scalar (.int 1)] ∅ ∅).1
      (by decide)).1
  · exact (claim_C9_nested_call_dispatch [] "abs"
      [.scalar (.int 1), .scalar (.int 2)] ∅ ∅).2.1 ∅
      [.constant (.int 1), .constant (.int 2)] (by decide)
  · exact (claim_C9_nested_call_dispatch [] "abs"
      [.scalar (.int 1), .scalar (.int 2)] ∅ ∅).2.2.1 ∅
      [.constant (.int 1), .constant (.int 2)] (by decide) (by decide)
  · exact (claim_C9_nested_call_dispatch [] "abs" [.scalar (.int 1)] ∅ ∅).2.2.2 ∅
      (.constant (.int 1)) (by decide)

/-- C10: when a Query's resolved Columns touch more than one table but
the from-table is not among them (or no from-table was supplied), the
join path fails with the unhandled Python `KeyError` raised by removing
the from-table from the touched set — not with a `TranslationError` —
in both backends; a multi-table Query translates successfully only when
the from-table is among its touched tables. -/
theorem claim_C10_missing_from_table (sc : Schema) (ft : Option String)
    (gs : GState) (sgs : SAGState) (q : Query) :
    (∀ s : TQState, translateExprs q ⟨∅, []⟩ = .ok s → 1 < s.tables.card →
      (∀ f, ft = some f → .str f ∉ s.tables) →
      translateQuery ft gs q = .error .keyError) ∧
    (∀ gs' : GState, translateQuery ft gs q = .ok gs' →
      ∀ s : TQState, translateExprs q ⟨∅, []⟩ = .ok s → 1 < s.tables.card →
        ∃ f, ft = some f ∧ .str f ∈ s.tables) ∧
    (∀ (f : String) (s : SAQState), saTranslateExprs sc q ⟨∅, []⟩ = .ok s →
      1 < s.tables.card → f ∉ s.tables →
      saTranslateQuery sc f sgs q = .error .keyError) := by
  refine ⟨?_, ?_, ?_⟩
  · intro s h1 h2 h3
    cases ft with
    | none => simp [translateQuery, classifyQuery, h1, h2]
    | some f =>
      have hf := h3 f rfl
      simp [translateQuery, classifyQuery, h1, h2, hf]
  · intro gs' hok s h1 h2
    cases ft with
    | none =>
      exfalso
      simp [translateQuery, classifyQuery, h1, h2] at hok
    | some f =>
      by_cases hf : Value.str f ∈ s.tables
      · exact ⟨f, rfl, hf⟩
      · exfalso
        simp [translateQuery, classifyQuery, h1, h2, hf] at hok
  · intro f s h1 h2 h3
    simp [saTranslateQuery, h1, h2, h3]

/-- C10 witness: the join Query `q.a = r.b` raises the `KeyError` when
translated with from-table `z` (portable and schema-bound backends) and
classifies to a join only because from-table `q` is among its touched
tables. -/
theorem claim_C10_missing_from_table_witness :
    (translateQuery (some "z") ⟨[], []⟩
        [.callE "eq" [.ref [.var "data", .scalar (.str "q"), .scalar (.str "a")],
                      .ref [.var "data", .scalar (.str "r"), .scalar (.str "b")]]] =
      .error .keyError) ∧
    (∃ f, (some "q" : Option String) = some f ∧
      Value.str f ∈ ({.str "r", .str "q"} : Finset Value)) ∧
    (saTranslateQuery [("q", ["a", "b"]), ("r", ["a", "b"])] "z" ⟨[], []⟩
        [.callE "eq" [.ref [.var "data", .scalar (.str "q"), .scalar (.str "a")],
                      .ref [.var "data", .scalar (.str "r"), .scalar (.str "b")]]] =
      .error .keyError) := by
  refine ⟨?_, ?_, ?_⟩
  · exact (claim_C10_missing_from_table [] (some "z") ⟨[], []⟩ ⟨[], []⟩
      [.callE "eq" [.ref [.var "data", .scalar (.str "q"), .scalar (.str "a")],
                    .ref [.var "data", .scalar (.str "r"), .scalar (.str "b")]]]).1
      ⟨{.str "r", .str "q"},
        [.relation "=" (.column (.str "q") (.str "a")) (.column (.str "r") (.str "b"))]⟩
      (by decide) (by decide) (by intro f hf; cases hf; decide)
  · exact (claim_C10_missing_from_table [] (some "q") ⟨[], []⟩ ⟨[], []⟩
      [.callE "eq" [.ref [.var "data", .scalar (.str "q"), .scalar (.str "a")],
                    .ref [.var "data", .scalar (.str "r"), .scalar (.str "b")]]]).2.1
      ⟨[], [({.str "r"},
        .conjunction [.relation "=" (.column (.str "q") (.str "a"))
          (.column (.str "r") (.str "b"))])]⟩
      (by decide)
      ⟨{.str "r", .str "q"},
        [.relation "=" (.column (.str "q") (.str "a")) (.column (.str "r") (.str "b"))]⟩
      (by decide) (by decide)
  · exact (claim_C10_missing_from_table [("q", ["a", "b"]), ("r", ["a", "b"])]
      (some "z") ⟨[], []⟩ ⟨[], []⟩
      [.callE "eq" [.ref [.var "data", .scalar (.str "q"), .scalar (.str "a")],
                    .ref [.var "data", .scalar (.str "r"), .scalar (.str "b")]]]).2.2
      "z" ⟨{"r", "q"},
        [.rel "=" (.column "q" "a") (.column "r" "b")]⟩
      (by decide) (by decide) (by decide)

end DFE
